import Mathlib

/-!
Verification of the steam-worker batch dispatcher against its design
specification.  The JavaScript source is shallowly embedded: each pure
decision function of the worker (`calculateAccountCapacity`,
`selectInvitesToCancel`, `classifyError`, `mapSteamErrorToResult`,
`verifyInviteStatus`, the timeout branch of `addFriend`, and the
sequential send loop `sendInvitesWithEarlyDetection`) becomes an
executable Lean function over explicit inputs; the external Steam client
is an oracle supplying per-call outcomes.  JavaScript numbers are
modelled as `Int`, nullable values as `Option`.
-/

namespace SteamWorker

/-- Result record of `calculateAccountCapacity` (worker_logic.js).
Field names follow the source. -/
structure CapacityResult where
  can_send : Bool
  max_sendable : Int
  needs_cleanup : Bool
  cleanup_needed : Int
  weekly_limited : Bool
  overall_limited : Bool
  deriving Repr, DecidableEq

/-- Embedding of `WorkerLogic.calculateAccountCapacity(account, requestedCount)`.
`weeklyInviteSlots` models `account.weekly_invite_slots` (the JS
`|| 0` maps null to 0 and keeps any number unchanged);
`overallFriendSlots` models `account.overall_friend_slots` where
`none` is the JS `null` ("never measured"). -/
def calculateAccountCapacity (weeklyInviteSlots overallFriendSlots : Option Int)
    (requestedCount : Int) : CapacityResult :=
  let weeklySlots := weeklyInviteSlots.getD 0
  if weeklySlots ≤ 0 then
    { can_send := false, max_sendable := 0, needs_cleanup := false, cleanup_needed := 0,
      weekly_limited := true, overall_limited := false }
  else
    match overallFriendSlots with
    | none =>
      { can_send := true, max_sendable := min requestedCount weeklySlots,
        needs_cleanup := false, cleanup_needed := 0,
        weekly_limited := false, overall_limited := false }
    | some overallSlots =>
      let maxSendable := min requestedCount weeklySlots
      let slotsAfterSending := overallSlots + maxSendable
      if slotsAfterSending ≤ 250 then
        { can_send := true, max_sendable := maxSendable, needs_cleanup := false,
          cleanup_needed := 0,
          weekly_limited := decide (weeklySlots < requestedCount), overall_limited := false }
      else
        { can_send := true, max_sendable := maxSendable, needs_cleanup := true,
          cleanup_needed := overallSlots - (250 - maxSendable),
          weekly_limited := decide (weeklySlots < requestedCount), overall_limited := true }

/-- The result object that `SteamConnector.addFriend` resolves with.
`error`/`eresult`/`errorType` are `none` when the JS object omits the
field (or sets it to `null`); `limitReached` is `false` when omitted,
matching JS truthiness checks on `undefined`. -/
structure InviteResult where
  success : Bool
  error : Option String := none
  eresult : Option Int := none
  errorType : Option String := none
  limitReached : Bool := false
  deriving Repr, DecidableEq

/-- One row of the `errorMap` table in
`SteamConnector.mapSteamErrorToResult` (steam_connector.js). -/
structure ErrInfo where
  type : String
  message : String
  limitReached : Bool
  deriving Repr, DecidableEq

/-- The fixed `errorMap` lookup of `mapSteamErrorToResult`
(steam_connector.js, current revision): codes 14, 15, 17, 25, 29, 40,
84 are mapped; every other code misses the table. -/
def errorMapLookup (eresult : Int) : Option ErrInfo :=
  if eresult = 14 then some { type := "definitive", message := "Already friends", limitReached := false }
  else if eresult = 15 then some { type := "temporary", message := "Access denied (rate limit)", limitReached := false }
  else if eresult = 17 then some { type := "definitive", message := "Account banned", limitReached := false }
  else if eresult = 25 then some { type := "temporary", message := "Limit exceeded", limitReached := true }
  else if eresult = 29 then some { type := "temporary", message := "Timeout", limitReached := false }
  else if eresult = 40 then some { type := "definitive", message := "Blocked by user", limitReached := false }
  else if eresult = 84 then some { type := "temporary", message := "Rate limit reached", limitReached := true }
  else none

/-- A raw error delivered by the Steam client callback: `eresult` may be
absent (JS `err.eresult || 0` then substitutes 0). -/
structure SteamErr where
  eresult : Option Int
  message : String
  deriving Repr, DecidableEq

/-- Embedding of `SteamConnector.mapSteamErrorToResult(err, steamId)`:
the table row, or the fail-open default
`{type: temporary, message: err.message, limitReached: false}`. -/
def mapSteamErrorToResult (err : SteamErr) : InviteResult :=
  let eresult := err.eresult.getD 0
  let info :=
    match errorMapLookup eresult with
    | some i => i
    | none => { type := "temporary", message := err.message, limitReached := false }
  { success := false, error := some info.message, eresult := some eresult,
    errorType := some info.type, limitReached := info.limitReached }

/-- `workerCooldownErrors` from `sendInvitesWithEarlyDetection`
(worker_logic.js): rate-limit codes that stop the batch and trigger the
worker cooldown. -/
def workerCooldownErrors : List Int := [15]

/-- `accountLimitErrors` from `sendInvitesWithEarlyDetection`: codes
that stop the batch and mark the account limit, without cooldown. -/
def accountLimitErrors : List Int := [25, 84]

/-- `accountBannedErrors` from `sendInvitesWithEarlyDetection`: codes
that stop the batch immediately and flag the account as banned. -/
def accountBannedErrors : List Int := [17]

/-- JS `list.includes(code)` where `code` may be `null`:
`null` is never a member. -/
def codeIn (l : List Int) : Option Int → Bool
  | none => false
  | some c => decide (c ∈ l)

/-- `definitiveErrors` table of `WorkerLogic.classifyError`. -/
def definitiveErrors : List Int := [14, 40, 17]

/-- `temporaryErrors` table of `WorkerLogic.classifyError`. -/
def temporaryErrors : List Int := [15, 25, 29, 84]

/-- Embedding of `WorkerLogic.classifyError(errorCode, errorMessage)`:
a pure lookup keyed only on the code (the message argument is unused by
the source), defaulting to temporary for unknown codes. -/
def classifyError (errorCode : Option Int) : String :=
  if codeIn definitiveErrors errorCode then "definitive"
  else if codeIn temporaryErrors errorCode then "temporary"
  else "temporary"

/-- An element pushed onto `results.failed` by
`sendInvitesWithEarlyDetection`. -/
structure FailedEntry where
  steamId : String
  error : Option String
  errorCode : Option Int
  errorType : String
  deriving Repr, DecidableEq

/-- The `results` accumulator of `sendInvitesWithEarlyDetection`. -/
structure BatchResults where
  successful : List String
  failed : List FailedEntry
  temporaryFailures : List String
  limitReached : Bool
  invitationErrorCount : Nat
  accountBanned : Bool
  deriving Repr, DecidableEq

/-- What one `steamConnector.addFriend(target.slug)` call produced, as
observed by the dispatch loop: either a resolved result object, or a
thrown exception caught by the loop's `catch`. -/
inductive SendOutcome where
  | res (r : InviteResult)
  | exn (message : String)
  deriving Repr, DecidableEq

/-- The initial `results` object of `sendInvitesWithEarlyDetection`. -/
def emptyBatchResults : BatchResults :=
  { successful := [], failed := [], temporaryFailures := [], limitReached := false,
    invitationErrorCount := 0, accountBanned := false }

/-- Embedding of `WorkerLogic.sendInvitesWithEarlyDetection(targets, delayMs)`
(worker_logic.js).  The input pairs each target slug (the loop only
reads `target.slug`) with the outcome its `addFriend` call produced;
the inter-invite delay has no effect on the returned buckets.  Early
stops (codes 15, 25/84, 17) flush the remaining slugs into
`temporaryFailures` exactly as the source's inner `for (j = i+1; ...)`
loops do. -/
def sendInvitesWithEarlyDetection : List (String × SendOutcome) → BatchResults
  | [] => emptyBatchResults
  | (slug, SendOutcome.res r) :: rest =>
    if r.success then
      let acc := sendInvitesWithEarlyDetection rest
      { acc with successful := slug :: acc.successful }
    else
      let errorCode := r.eresult
      let entry : FailedEntry :=
        { steamId := slug, error := r.error, errorCode := errorCode,
          errorType := classifyError errorCode }
      let hitLimit := codeIn accountLimitErrors errorCode || r.limitReached
      if codeIn workerCooldownErrors errorCode then
        { successful := [], failed := [entry],
          temporaryFailures := rest.map Prod.fst,
          limitReached := hitLimit, invitationErrorCount := 1, accountBanned := false }
      else if codeIn accountLimitErrors errorCode then
        { successful := [], failed := [entry],
          temporaryFailures := rest.map Prod.fst,
          limitReached := hitLimit, invitationErrorCount := 0, accountBanned := false }
      else if codeIn accountBannedErrors errorCode then
        { successful := [], failed := [entry],
          temporaryFailures := rest.map Prod.fst,
          limitReached := hitLimit, invitationErrorCount := 0, accountBanned := true }
      else
        let acc := sendInvitesWithEarlyDetection rest
        { acc with failed := entry :: acc.failed,
                   limitReached := hitLimit || acc.limitReached }
  | (slug, SendOutcome.exn msg) :: rest =>
    let acc := sendInvitesWithEarlyDetection rest
    { acc with failed := { steamId := slug, error := some msg, errorCode := none,
                           errorType := "temporary" } :: acc.failed }

/-- Step 7 of `WorkerLogic.processInvites`: the cooldown advisory's
`should_apply` flag starts false and is set exactly when
`inviteResults.invitationErrorCount > 0`. -/
def cooldownShouldApply (r : BatchResults) : Bool :=
  decide (0 < r.invitationErrorCount)

/-- All peer ids accounted for by a batch result, bucket by bucket. -/
def bucketIds (r : BatchResults) : List String :=
  r.successful ++ r.failed.map FailedEntry.steamId ++ r.temporaryFailures

/-- One element of the `pendingInvites` list handed to the cleaner: a
sent-but-unaccepted invite.  `friend_since` models the nullable
timestamp (the spec's `establishedAt`). -/
structure PendingInvite where
  steamId : String
  friend_since : Option Int := none
  deriving Repr, DecidableEq

/-- A JS `Set` built by inserting the elements of a list in order:
duplicates collapse onto their first occurrence and insertion order is
preserved (`new Set(pendingInvites.map(inv => inv.steamId))`,
iterated by `Array.from`). -/
def dedupKeepFirst : List String → List String
  | [] => []
  | x :: xs => x :: (dedupKeepFirst xs).filter (fun y => decide (y ≠ x))

/-- The Priority-1 loop of `selectInvitesToCancel`
(src/steam_invite_cleaner.js): walk the DB hint in order; whenever the
id is still in the live pending set, select it and delete it from the
set; stop once the needed count is reached.  Returns the selection and
the remaining set (in insertion order). -/
def hintLoop : List String → Nat → List String → List String × List String
  | [], _, s => ([], s)
  | h :: t, need, s =>
    if need = 0 then ([], s)
    else if h ∈ s then
      let p := hintLoop t (need - 1) (s.erase h)
      (h :: p.1, p.2)
    else hintLoop t need s

/-- Embedding of `SteamInviteCleaner.selectInvitesToCancel(pendingInvites,
slotsNeeded, oldestPendingInvites)` (src/steam_invite_cleaner.js): the
DB-prioritised pass over the hint, then, if still short, Priority 2
takes the remaining pending ids in set (insertion) order via
`Array.from(pendingSteamIds).slice(0, remainingNeeded)`. -/
def selectInvitesToCancel (pendingInvites : List PendingInvite) (slotsNeeded : Nat)
    (oldestPendingInvites : List String) : List String :=
  if pendingInvites.length = 0 then []
  else
    let pendingSteamIds := dedupKeepFirst (pendingInvites.map PendingInvite.steamId)
    let p := hintLoop oldestPendingInvites slotsNeeded pendingSteamIds
    if p.1.length < slotsNeeded then p.1 ++ p.2.take (slotsNeeded - p.1.length)
    else p.1

/-- Declarative description of the hinted pass: the first `need`
distinct hint entries that are present in the live pending set, in hint
order. -/
def hintSelection (pending : List PendingInvite) (need : Nat) (hint : List String) :
    List String :=
  (dedupKeepFirst (hint.filter
    (fun h => decide (h ∈ dedupKeepFirst (pending.map PendingInvite.steamId))))).take need

/-- Declarative description of the fallback pass actually implemented:
the pending ids not chosen by the hinted pass, kept in their original
(set insertion) order — not sorted by age, and with no exclusion of
entries lacking `friend_since` — truncated to the still-needed count. -/
def fallbackSelection (pending : List PendingInvite) (need : Nat) (hint : List String) :
    List String :=
  ((dedupKeepFirst (pending.map PendingInvite.steamId)).filter
    (fun x => decide (x ∉ hintSelection pending need hint))).take
      (need - (hintSelection pending need hint).length)

/-- The `relationshipType` switch of `getFriendsList`
(steam_connector.js): 3 is a confirmed friend, 4 and 2 a sent invite,
1 a received invite, anything else unknown. -/
def relationshipType (relationship : Int) : String :=
  if relationship = 3 then "friend"
  else if relationship = 4 ∨ relationship = 2 then "invite_sent"
  else if relationship = 1 then "invite_received"
  else "unknown"

/-- Result of `verifyInviteStatus`.  The JS failure object omits
`alreadyFriends` (undefined, hence falsy). -/
structure VerifyResult where
  inviteSent : Bool
  alreadyFriends : Bool
  canVerify : Bool
  deriving Repr, DecidableEq

/-- Embedding of `SteamConnector.verifyInviteStatus(steamId)`
(steam_connector.js).  The snapshot is the client's relationship map as
a keyed list of `(steamID, relationship)` pairs; `none` models a failed
re-query of the friends list (or a thrown exception). -/
def verifyInviteStatus (snapshot : Option (List (String × Int))) (steamId : String) :
    VerifyResult :=
  match snapshot with
  | none => { inviteSent := false, alreadyFriends := false, canVerify := false }
  | some friends =>
    let pendingInvites :=
      friends.filter (fun f => decide (relationshipType f.2 = "invite_sent"))
    let confirmedFriends :=
      friends.filter (fun f => decide (relationshipType f.2 = "friend"))
    { inviteSent := pendingInvites.any (fun f => decide (f.1 = steamId)),
      alreadyFriends := confirmedFriends.any (fun f => decide (f.1 = steamId)),
      canVerify := true }

/-- The timeout branch of `SteamConnector.addFriend` (steam_connector.js):
past the 30s deadline, the connector re-queries relationship state and
classifies the ambiguous outcome from the snapshot. -/
def timeoutReconcile (steamId : String) (snapshot : Option (List (String × Int))) :
    InviteResult :=
  let verification := verifyInviteStatus snapshot steamId
  if ¬ verification.canVerify then
    { success := false, error := some "Friend invite timeout (verification failed)",
      eresult := some 29, errorType := some "temporary" }
  else if verification.inviteSent then
    { success := true, error := none, eresult := some 1 }
  else if verification.alreadyFriends then
    { success := false, error := some "Already friends with this user",
      eresult := some 14, errorType := some "definitive" }
  else
    { success := false, error := some "Friend invite timeout (verified not sent)",
      eresult := some 29, errorType := some "temporary" }

/-- The connection-state fields of `SteamConnector` that `addFriend`'s
guard reads: `isConnected`, and whether `client` is non-null. -/
structure ConnectorState where
  isConnected : Bool
  hasClient : Bool
  deriving Repr, DecidableEq

/-- What the external Steam client does with one `client.addFriend`
call: invoke the callback (with or without an error), or stay silent
past the deadline, in which case the timeout handler re-queries the
given relationship snapshot. -/
inductive ClientEvent where
  | reply (err : Option SteamErr)
  | timeout (snapshot : Option (List (String × Int)))
  deriving Repr, DecidableEq

/-- Embedding of `SteamConnector.addFriend(steamId)` (steam_connector.js):
returns the resolved result object, the connector state afterwards, and
the list of requests actually issued to the external client. -/
def addFriend (st : ConnectorState) (steamId : String) (ev : ClientEvent) :
    InviteResult × ConnectorState × List String :=
  if !st.isConnected || !st.hasClient then
    ({ success := false, error := some "Not connected to Steam", eresult := none }, st, [])
  else
    match ev with
    | ClientEvent.reply none =>
      ({ success := true, error := none, eresult := some 1 }, st, [steamId])
    | ClientEvent.reply (some err) => (mapSteamErrorToResult err, st, [steamId])
    | ClientEvent.timeout snapshot => (timeoutReconcile steamId snapshot, st, [steamId])

end SteamWorker

namespace SteamWorker

/-- Claim C1: for every call to `calculateAccountCapacity` with
`weeklyAllowance > 0` and `overallUsed` not null, `maxSendable`
is `min(requested, weeklyAllowance)`, cleanup is needed exactly when
`overallUsed + maxSendable > 250`, and in that case
`cleanup_needed = overallUsed - (250 - maxSendable)`. -/
theorem capacity_plan_measured (w u r : Int) (hw : 0 < w) :
    (calculateAccountCapacity (some w) (some u) r).max_sendable = min r w
    ∧ ((calculateAccountCapacity (some w) (some u) r).needs_cleanup = true
        ↔ 250 < u + min r w)
    ∧ ((calculateAccountCapacity (some w) (some u) r).needs_cleanup = true →
        (calculateAccountCapacity (some w) (some u) r).cleanup_needed
          = u - (250 - min r w)) := by
  have hw' : ¬ (w ≤ 0) := by omega
  simp only [calculateAccountCapacity, Option.getD_some, hw', if_false]
  split
  · rename_i hle
    refine ⟨rfl, ?_, ?_⟩
    · simp only [iff_false, Bool.false_eq_true, false_iff]
      omega
    · intro h
      simp at h
  · rename_i hgt
    refine ⟨rfl, ?_, fun _ => rfl⟩
    simp only [true_iff]
    omega

/-- Claim C1 witness: the documented scenario
`weeklyAllowance = 30, overallUsed = 240, requested = 20` yields
`maxSendable = 20`, `needs_cleanup = true`, `cleanup_needed = 10`. -/
theorem capacity_plan_measured_case :
    (0 : Int) < 30
    ∧ (calculateAccountCapacity (some 30) (some 240) 20).max_sendable = 20
    ∧ (calculateAccountCapacity (some 30) (some 240) 20).needs_cleanup = true
    ∧ (calculateAccountCapacity (some 30) (some 240) 20).cleanup_needed = 10 := by
  have h := capacity_plan_measured 30 240 20 (by decide)
  refine ⟨by decide, ?_, ?_, ?_⟩
  · rw [h.1]; decide
  · exact h.2.1.mpr (by decide)
  · rw [h.2.2 (h.2.1.mpr (by decide))]; decide

/-- Claim C6 counterexample: with `weeklyAllowance = 5`,
`overallUsed = null`, `requested = 10` we have
`weeklyAllowance < requested`, yet the code's unmeasured branch
hardcodes `weekly_limited = false`, refuting the claim that the flag is
set whenever `weeklyAllowance < requested`. -/
theorem weekly_limited_cex :
    (5 : Int) < 10
    ∧ (calculateAccountCapacity (some 5) none 10).weekly_limited ≠ true := by
  decide

/-- Claim C6 amended: `weekly_limited` equals
`weeklyAllowance < requested` only in the measured branch with
`weeklyAllowance > 0`; in the `weeklyAllowance ≤ 0` branch it is always
`true` regardless of `overallUsed` (measured, unmeasured, or never
stored); and in the `overallUsed = null` (unmeasured) branch with
`weeklyAllowance > 0` it is always `false`, even when
`weeklyAllowance < requested`. -/
theorem weekly_limited_branches (wOpt oOpt : Option Int) (r : Int) :
    (∀ w u : Int, wOpt = some w → oOpt = some u → 0 < w →
        (calculateAccountCapacity wOpt oOpt r).weekly_limited = decide (w < r))
    ∧ (wOpt.getD 0 ≤ 0 →
        (calculateAccountCapacity wOpt oOpt r).weekly_limited = true)
    ∧ (0 < wOpt.getD 0 → oOpt = none →
        (calculateAccountCapacity wOpt oOpt r).weekly_limited = false) := by
  refine ⟨fun w u hw hu hpos => ?_, fun hle => ?_, fun hpos hnone => ?_⟩
  · subst hw
    subst hu
    have hw' : ¬ (w ≤ 0) := by omega
    simp only [calculateAccountCapacity, Option.getD_some, hw', if_false]
    split <;> rfl
  · simp only [calculateAccountCapacity, hle, if_true]
  · subst hnone
    have hw' : ¬ (wOpt.getD 0 ≤ 0) := by omega
    simp only [calculateAccountCapacity, hw', if_false]

/-- Claim C6 amended witness: at `(5, 100, 10)` the measured branch
sets the flag to `decide (5 < 10)`; at `(0, null, 10)` the exhausted
branch reports `true` with an unmeasured ceiling; and at `(5, null,
10)` the unmeasured branch hardcodes `false`. -/
theorem weekly_limited_branches_case :
    ((0 : Int) < 5)
    ∧ (calculateAccountCapacity (some 5) (some 100) 10).weekly_limited
        = decide ((5 : Int) < 10)
    ∧ ((Option.some (0 : Int)).getD 0 ≤ 0)
    ∧ (calculateAccountCapacity (some 0) none 10).weekly_limited = true
    ∧ (calculateAccountCapacity (some 5) none 10).weekly_limited = false := by
  have h1 := weekly_limited_branches (some 5) (some 100) 10
  have h2 := weekly_limited_branches (some 0) none 10
  have h3 := weekly_limited_branches (some 5) none 10
  exact ⟨by decide, h1.1 5 100 rfl rfl (by decide), by decide,
    h2.2.1 (by decide), h3.2.2 (by decide) rfl⟩

/-- Claim C7 counterexample: at `weeklyAllowance = 0`,
`overallUsed = 260`, `requested = 5` the code returns
`needs_cleanup = false` and `max_sendable = 0`, but
`overallUsed + maxSendable = 260 > 250`, refuting the claimed invariant
for the `weeklyAllowance ≤ 0` branch. -/
theorem capacity_invariant_cex :
    (calculateAccountCapacity (some 0) (some 260) 5).needs_cleanup = false
    ∧ ¬ ((260 : Int) + (calculateAccountCapacity (some 0) (some 260) 5).max_sendable
          ≤ 250) := by
  decide

/-- Claim C7 amended: for every input, `max_sendable ≤ max(weeklyAllowance, 0)`
(so `max_sendable ≤ weeklyAllowance` whenever the stored allowance is
nonnegative), and whenever `can_send` is true, `needs_cleanup` is false
and `overallUsed` is measured, `overallUsed + max_sendable ≤ 250`. -/
theorem capacity_invariants_amended (wOpt oOpt : Option Int) (r : Int) :
    (calculateAccountCapacity wOpt oOpt r).max_sendable ≤ max (wOpt.getD 0) 0
    ∧ (0 ≤ wOpt.getD 0 →
        (calculateAccountCapacity wOpt oOpt r).max_sendable ≤ wOpt.getD 0)
    ∧ (∀ u : Int, oOpt = some u →
        (calculateAccountCapacity wOpt oOpt r).can_send = true →
        (calculateAccountCapacity wOpt oOpt r).needs_cleanup = false →
        u + (calculateAccountCapacity wOpt oOpt r).max_sendable ≤ 250) := by
  simp only [calculateAccountCapacity]
  split
  · rename_i hle
    refine ⟨?_, fun hpos => ?_, fun u hu h1 h2 => ?_⟩
    · exact le_max_right _ _
    · dsimp only
      omega
    · dsimp only at h1
      exact absurd h1 (by simp)
  · rename_i hgt
    match oOpt with
    | none =>
      refine ⟨?_, fun hpos => ?_, fun u hu _ _ => by simp at hu⟩
      · exact le_trans (min_le_right r _) (le_max_left _ 0)
      · exact min_le_right r _
    | some v =>
      dsimp only
      split
      · rename_i hfits
        refine ⟨?_, fun hpos => ?_, fun u hu h1 h2 => ?_⟩
        · exact le_trans (min_le_right r _) (le_max_left _ 0)
        · exact min_le_right r _
        · obtain rfl : v = u := by injection hu
          exact hfits
      · rename_i hover
        refine ⟨?_, fun hpos => ?_, fun u hu h1 h2 => ?_⟩
        · exact le_trans (min_le_right r _) (le_max_left _ 0)
        · exact min_le_right r _
        · dsimp only at h2
          exact absurd h2 (by simp)

/-- Claim C7 amended witness: at `(weekly, overall, requested) = (10, 200, 5)`
the bound holds and the measured no-cleanup case stays within 250. -/
theorem capacity_invariants_amended_case :
    (calculateAccountCapacity (some 10) (some 200) 5).max_sendable
        ≤ max ((some (10 : Int)).getD 0) 0
    ∧ ((0 : Int) ≤ (some (10 : Int)).getD 0)
    ∧ (200 : Int) + (calculateAccountCapacity (some 10) (some 200) 5).max_sendable
        ≤ 250 := by
  have h := capacity_invariants_amended (some 10) (some 200) 5
  exact ⟨h.1, by decide, h.2.2 200 rfl (by decide) (by decide)⟩

/-- Every target slug fed to the dispatch loop lands in exactly one
bucket: the three buckets concatenated are a permutation of the input
slugs, whatever the outcomes were. -/
theorem bucketIds_perm (l : List (String × SendOutcome)) :
    (bucketIds (sendInvitesWithEarlyDetection l)).Perm (l.map Prod.fst) := by
  induction l with
  | nil => simp [sendInvitesWithEarlyDetection, emptyBatchResults, bucketIds]
  | cons hd rest ih =>
    obtain ⟨slug, o⟩ := hd
    cases o with
    | res r =>
      cases hs : r.success with
      | true =>
        simp only [sendInvitesWithEarlyDetection, hs, if_true, bucketIds, List.map_cons,
          List.cons_append] at ih ⊢
        exact ih.cons slug
      | false =>
        simp only [sendInvitesWithEarlyDetection, hs, Bool.false_eq_true, if_false]
        by_cases h15 : codeIn workerCooldownErrors r.eresult = true
        · simp [h15, bucketIds]
        · simp only [h15]
          by_cases h25 : codeIn accountLimitErrors r.eresult = true
          · simp [h25, bucketIds]
          · simp only [h25]
            by_cases h17 : codeIn accountBannedErrors r.eresult = true
            · simp [h17, bucketIds]
            · simp only [h17, Bool.false_eq_true, if_false, bucketIds, List.map_cons] at ih ⊢
              refine List.Perm.trans ?_ (ih.cons slug)
              refine List.Perm.trans (List.Perm.append_right _ List.perm_middle) ?_
              simp only [List.cons_append]
              exact List.Perm.refl _
    | exn msg =>
      simp only [sendInvitesWithEarlyDetection, bucketIds, List.map_cons] at ih ⊢
      refine List.Perm.trans ?_ (ih.cons slug)
      refine List.Perm.trans (List.Perm.append_right _ List.perm_middle) ?_
      simp only [List.cons_append]
      exact List.Perm.refl _

/-- Claim C2: for a batch of distinct target slugs with arbitrary
per-target outcomes, the buckets `successful`, `failed` and
`temporaryFailures` (notAttempted) of `sendInvitesWithEarlyDetection`
are pairwise disjoint and together are exactly the input target set (a
permutation of the input slugs): no slug is lost and none appears in
two buckets. -/
theorem dispatch_buckets_partition (l : List (String × SendOutcome))
    (h : (l.map Prod.fst).Nodup) :
    (bucketIds (sendInvitesWithEarlyDetection l)).Perm (l.map Prod.fst)
    ∧ (sendInvitesWithEarlyDetection l).successful.Disjoint
        ((sendInvitesWithEarlyDetection l).failed.map FailedEntry.steamId)
    ∧ (sendInvitesWithEarlyDetection l).successful.Disjoint
        (sendInvitesWithEarlyDetection l).temporaryFailures
    ∧ ((sendInvitesWithEarlyDetection l).failed.map FailedEntry.steamId).Disjoint
        (sendInvitesWithEarlyDetection l).temporaryFailures := by
  have hperm := bucketIds_perm l
  have hnd : (bucketIds (sendInvitesWithEarlyDetection l)).Nodup := hperm.symm.nodup h
  rw [bucketIds, List.append_assoc] at hnd
  rcases List.nodup_append.mp hnd with ⟨hA, hFT, hdisjA⟩
  rcases List.nodup_append.mp hFT with ⟨hF, hT, hdisjFT⟩
  refine ⟨hperm, ?_, ?_, hdisjFT⟩
  · intro a ha hb
    exact hdisjA ha (List.mem_append_left _ hb)
  · intro a ha hb
    exact hdisjA ha (List.mem_append_right _ hb)

/-- A concrete four-target batch: one success, one generic failure, a
rate-limit stop at the third target, and a never-attempted fourth. -/
def demoDispatchInput : List (String × SendOutcome) :=
  [("a", SendOutcome.res { success := true, eresult := some 1 }),
   ("b", SendOutcome.res { success := false, eresult := some 7 }),
   ("c", SendOutcome.res { success := false, eresult := some 15 }),
   ("d", SendOutcome.res { success := true, eresult := some 1 })]

/-- Claim C2 witness: the partition theorem applied to the concrete
four-target batch. -/
theorem dispatch_buckets_partition_case :
    (demoDispatchInput.map Prod.fst).Nodup
    ∧ ((bucketIds (sendInvitesWithEarlyDetection demoDispatchInput)).Perm
        (demoDispatchInput.map Prod.fst)
      ∧ (sendInvitesWithEarlyDetection demoDispatchInput).successful.Disjoint
          ((sendInvitesWithEarlyDetection demoDispatchInput).failed.map FailedEntry.steamId)
      ∧ (sendInvitesWithEarlyDetection demoDispatchInput).successful.Disjoint
          (sendInvitesWithEarlyDetection demoDispatchInput).temporaryFailures
      ∧ ((sendInvitesWithEarlyDetection demoDispatchInput).failed.map FailedEntry.steamId).Disjoint
          (sendInvitesWithEarlyDetection demoDispatchInput).temporaryFailures) :=
  ⟨by decide, dispatch_buckets_partition demoDispatchInput (by decide)⟩

/-- The worker cooldown list test recognises exactly code 15. -/
theorem codeIn_worker_iff (c : Option Int) :
    codeIn workerCooldownErrors c = true ↔ c = some 15 := by
  cases c <;> simp [codeIn, workerCooldownErrors]

/-- Claim C4: after a dispatched batch, the cooldown advisory applies
exactly when some attempted target failed with rate-limit code 15; in
particular account-limit failures (25/84) stop the batch without ever
setting it. -/
theorem cooldown_iff_rate_limit (l : List (String × SendOutcome)) :
    cooldownShouldApply (sendInvitesWithEarlyDetection l) = true
      ↔ ∃ e ∈ (sendInvitesWithEarlyDetection l).failed, e.errorCode = some 15 := by
  induction l with
  | nil => simp [sendInvitesWithEarlyDetection, emptyBatchResults, cooldownShouldApply]
  | cons hd rest ih =>
    obtain ⟨slug, o⟩ := hd
    cases o with
    | res r =>
      cases hs : r.success with
      | true =>
        simp only [sendInvitesWithEarlyDetection, hs, if_true]
        simpa [cooldownShouldApply] using ih
      | false =>
        simp only [sendInvitesWithEarlyDetection, hs, Bool.false_eq_true, if_false]
        cases h15 : codeIn workerCooldownErrors r.eresult with
        | true =>
          have hcode : r.eresult = some 15 := (codeIn_worker_iff _).mp h15
          simp [hcode, codeIn, workerCooldownErrors, accountLimitErrors,
            accountBannedErrors, cooldownShouldApply]
        | false =>
          have hcode : ¬ r.eresult = some 15 := by
            intro hc
            rw [(codeIn_worker_iff _).mpr hc] at h15
            cases h15
          simp only [h15, Bool.false_eq_true, if_false]
          cases h25 : codeIn accountLimitErrors r.eresult with
          | true => simp [h25, cooldownShouldApply, hcode]
          | false =>
            simp only [h25, Bool.false_eq_true, if_false]
            cases h17 : codeIn accountBannedErrors r.eresult with
            | true => simp [h17, cooldownShouldApply, hcode]
            | false =>
              simp only [h17, Bool.false_eq_true, if_false]
              simp only [cooldownShouldApply, decide_eq_true_eq] at ih ⊢
              rw [ih]
              constructor
              · rintro ⟨e, he, h15e⟩
                exact ⟨e, List.mem_cons_of_mem _ he, h15e⟩
              · rintro ⟨e, he, h15e⟩
                rcases List.mem_cons.mp he with rfl | he'
                · exact absurd h15e hcode
                · exact ⟨e, he', h15e⟩
    | exn msg =>
      simp only [sendInvitesWithEarlyDetection]
      simp only [cooldownShouldApply, decide_eq_true_eq] at ih ⊢
      rw [ih]
      constructor
      · rintro ⟨e, he, h15e⟩
        exact ⟨e, List.mem_cons_of_mem _ he, h15e⟩
      · rintro ⟨e, he, h15e⟩
        rcases List.mem_cons.mp he with rfl | he'
        · simp at h15e
        · exact ⟨e, he', h15e⟩

/-- Claim C4 witness: in the concrete four-target batch, whose third
target fails with code 15, the cooldown advisory applies. -/
theorem cooldown_iff_rate_limit_case :
    cooldownShouldApply (sendInvitesWithEarlyDetection demoDispatchInput) = true := by
  refine (cooldown_iff_rate_limit demoDispatchInput).mpr ?_
  refine ⟨{ steamId := "c", error := none, errorCode := some 15,
            errorType := classifyError (some 15) }, ?_, rfl⟩
  decide

/-- Membership in the set-like dedup is membership in the source list. -/
theorem mem_dedupKeepFirst {x : String} :
    ∀ {l : List String}, x ∈ dedupKeepFirst l ↔ x ∈ l := by
  intro l
  induction l with
  | nil => simp [dedupKeepFirst]
  | cons a t ih =>
    simp only [dedupKeepFirst, List.mem_cons, List.mem_filter, decide_eq_true_eq]
    constructor
    · rintro (rfl | ⟨hx, _⟩)
      · exact Or.inl rfl
      · exact Or.inr (ih.mp hx)
    · rintro (rfl | hx)
      · exact Or.inl rfl
      · by_cases hxa : x = a
        · exact Or.inl hxa
        · exact Or.inr ⟨ih.mpr hx, hxa⟩

/-- The set-like dedup never contains duplicates. -/
theorem nodup_dedupKeepFirst : ∀ l : List String, (dedupKeepFirst l).Nodup := by
  intro l
  induction l with
  | nil => simp [dedupKeepFirst]
  | cons a t ih =>
    rw [dedupKeepFirst, List.nodup_cons]
    refine ⟨fun hmem => ?_, ih.filter _⟩
    have := (List.mem_filter.mp hmem).2
    simp at this

/-- Filtering commutes with the set-like dedup. -/
theorem dedupKeepFirst_filter (p : String → Bool) :
    ∀ l : List String, dedupKeepFirst (l.filter p) = (dedupKeepFirst l).filter p := by
  intro l
  induction l with
  | nil => rfl
  | cons a t ih =>
    cases hp : p a with
    | true =>
      rw [List.filter_cons_of_pos hp, dedupKeepFirst, dedupKeepFirst, ih,
        List.filter_cons_of_pos hp, List.filter_filter, List.filter_filter]
      congr 1
      apply List.filter_congr
      intro y _
      rw [Bool.and_comm]
    | false =>
      rw [List.filter_cons_of_neg (by simp [hp]), dedupKeepFirst, ih,
        List.filter_cons_of_neg (by simp [hp]), List.filter_filter]
      apply List.filter_congr
      intro y _
      cases hy : p y with
      | true =>
        have hne : (y ≠ a) := by
          intro hya
          rw [hya, hp] at hy
          cases hy
        simp [hne]
      | false => simp

/-- Restricting a filter to the erased set splits into two filters. -/
theorem filter_erase_split (s : List String) (hs : s.Nodup) (h : String) :
    ∀ t : List String,
      t.filter (fun y => decide (y ∈ s.erase h))
        = (t.filter (fun y => decide (y ∈ s))).filter (fun y => decide (y ≠ h)) := by
  intro t
  induction t with
  | nil => rfl
  | cons b u ih =>
    by_cases hbs : b ∈ s
    · by_cases hbh : b = h
      · subst hbh
        have hno : b ∉ s.erase b := fun hc => (hs.mem_erase_iff.mp hc).1 rfl
        rw [List.filter_cons_of_neg (by simpa using hno),
          List.filter_cons_of_pos (by simpa using hbs),
          List.filter_cons_of_neg (by simp), ih]
      · have hin : b ∈ s.erase h := hs.mem_erase_iff.mpr ⟨hbh, hbs⟩
        rw [List.filter_cons_of_pos (by simpa using hin),
          List.filter_cons_of_pos (by simpa using hbs),
          List.filter_cons_of_pos (by simpa using hbh), ih]
    · have hout : b ∉ s.erase h := fun hc => hbs (hs.mem_erase_iff.mp hc).2
      rw [List.filter_cons_of_neg (by simpa using hout),
        List.filter_cons_of_neg (by simpa using hbs), ih]

/-- Filtering the erased set by a further exclusion list equals
filtering the original set by the extended exclusion list. -/
theorem filter_erase_not_mem_cons (h : String) (sel : List String) :
    ∀ s : List String, s.Nodup →
      (s.erase h).filter (fun x => decide (x ∉ sel))
        = s.filter (fun x => decide (x ∉ h :: sel)) := by
  intro s
  induction s with
  | nil => intro _; rfl
  | cons b u ih =>
    intro hs
    obtain ⟨hbu, hu⟩ := List.nodup_cons.mp hs
    by_cases hbh : b = h
    · subst hbh
      rw [List.erase_cons_head]
      rw [List.filter_cons_of_neg (by simp)]
      apply List.filter_congr
      intro y hy
      have hyb : y ≠ b := fun hyb => hbu (hyb ▸ hy)
      simp [hyb]
    · rw [List.erase_cons_tail (by simp [hbh])]
      by_cases hbsel : b ∈ sel
      · rw [List.filter_cons_of_neg (by simpa using hbsel),
          List.filter_cons_of_neg (by simp [hbsel]), ih hu]
      · rw [List.filter_cons_of_pos (by simpa using hbsel),
          List.filter_cons_of_pos (by simp [hbsel, hbh]), ih hu]

/-- Unfolding: the hinted loop with budget 0 selects nothing. -/
theorem hintLoop_zero (hint : List String) (s : List String) :
    hintLoop hint 0 s = ([], s) := by
  cases hint <;> simp [hintLoop]

/-- Unfolding: a live hint entry is selected and deleted from the set. -/
theorem hintLoop_cons_mem (h : String) (t : List String) (n : Nat) (s : List String)
    (hmem : h ∈ s) :
    hintLoop (h :: t) (n + 1) s
      = (h :: (hintLoop t n (s.erase h)).1, (hintLoop t n (s.erase h)).2) := by
  simp [hintLoop, hmem]

/-- Unfolding: a stale hint entry is skipped. -/
theorem hintLoop_cons_not_mem (h : String) (t : List String) (n : Nat) (s : List String)
    (hmem : h ∉ s) :
    hintLoop (h :: t) (n + 1) s = hintLoop t (n + 1) s := by
  simp [hintLoop, hmem]

/-- Characterisation of the hinted pass over a duplicate-free live set:
the selection is the first `need` distinct live hint entries in hint
order, and the leftover set keeps the unselected ids in their original
order. -/
theorem hintLoop_eq (hint : List String) :
    ∀ (need : Nat) (s : List String), s.Nodup →
      (hintLoop hint need s).1
          = (dedupKeepFirst (hint.filter (fun h => decide (h ∈ s)))).take need
        ∧ (hintLoop hint need s).2
          = s.filter (fun x => decide (x ∉ (hintLoop hint need s).1)) := by
  induction hint with
  | nil =>
    intro need s _
    refine ⟨by simp [hintLoop, dedupKeepFirst], by simp [hintLoop]⟩
  | cons h t ih =>
    intro need s hs
    cases need with
    | zero =>
      rw [hintLoop_zero]
      exact ⟨by simp, by simp⟩
    | succ n =>
      by_cases hmem : h ∈ s
      · obtain ⟨ih1, ih2⟩ := ih n (s.erase h) (hs.erase h)
        rw [hintLoop_cons_mem h t n s hmem]
        constructor
        · dsimp only
          rw [List.filter_cons_of_pos (by simpa using hmem), dedupKeepFirst,
            List.take_succ_cons, ih1, filter_erase_split s hs h t, dedupKeepFirst_filter]
        · dsimp only
          rw [ih2]
          exact filter_erase_not_mem_cons h _ s hs
      · obtain ⟨ih1, ih2⟩ := ih (n + 1) s hs
        rw [hintLoop_cons_not_mem h t n s hmem]
        constructor
        · rw [ih1, List.filter_cons_of_neg (by simpa using hmem)]
        · exact ih2

/-- The imperative two-pass selection equals its declarative
description: hinted pass first, then the remaining pending ids in
original order truncated to the still-needed count. -/
theorem selectInvitesToCancel_eq (pending : List PendingInvite) (need : Nat)
    (hint : List String) :
    selectInvitesToCancel pending need hint
      = hintSelection pending need hint ++ fallbackSelection pending need hint := by
  simp only [selectInvitesToCancel, fallbackSelection, hintSelection]
  by_cases hemp : pending.length = 0
  · rw [List.length_eq_zero] at hemp
    subst hemp
    simp [dedupKeepFirst, hintLoop]
  · simp only [hemp, if_false]
    obtain ⟨h1, h2⟩ := hintLoop_eq hint need
      (dedupKeepFirst (pending.map PendingInvite.steamId)) (nodup_dedupKeepFirst _)
    by_cases hlt :
        (hintLoop hint need (dedupKeepFirst (pending.map PendingInvite.steamId))).1.length
          < need
    · simp only [hlt, if_true]
      rw [h2, h1]
    · simp only [hlt, if_false]
      have hle :
          (hintLoop hint need (dedupKeepFirst (pending.map PendingInvite.steamId))).1.length
            ≤ need := by
        rw [h1]
        exact List.length_take_le _ _
      have hto :
          (hintLoop hint need (dedupKeepFirst (pending.map PendingInvite.steamId))).1.length
            = need := Nat.le_antisymm hle (Nat.le_of_not_lt hlt)
      have hlen2 :
          (List.take need
            (dedupKeepFirst (hint.filter
              (fun h => decide (h ∈ dedupKeepFirst (pending.map PendingInvite.steamId)))))).length
            = need := by
        rw [← h1]
        exact hto
      rw [hlen2, Nat.sub_self, List.take_zero, List.append_nil]
      exact h1

/-- Claim C5 counterexample: with an empty hint (so the hinted pass
leaves the selection short) and pending entries `A` (no timestamp),
`B` (time 5), `C` (time 1), the fallback pass returns `A` — an entry
whose `friend_since` is null, which the claim says is ineligible and
never selected, instead of the oldest eligible entry `C`. -/
theorem eviction_fallback_cex :
    selectInvitesToCancel
        [{ steamId := "A", friend_since := none },
         { steamId := "B", friend_since := some 5 },
         { steamId := "C", friend_since := some 1 }] 1 []
      = ["A"]
    ∧ ({ steamId := "A", friend_since := none } : PendingInvite).friend_since = none := by
  constructor
  · rfl
  · rfl

/-- Claim C5 amended: when the hinted pass leaves the selection short of
`count`, the fallback pass selects the remaining pending entries in
their original (set insertion) order, ignoring `establishedAt` —
entries with no `establishedAt` are selectable like any other; with
`count = 3` and a hint of 2 live ids and 1 stale id, the result is the
2 hinted ids plus the first remaining pending entry in live-list order
(here one with no timestamp). -/
theorem eviction_fallback_amended :
    (∀ (pending : List PendingInvite) (need : Nat) (hint : List String),
        selectInvitesToCancel pending need hint
          = hintSelection pending need hint ++ fallbackSelection pending need hint)
    ∧ selectInvitesToCancel
        [{ steamId := "B", friend_since := some 5 },
         { steamId := "A", friend_since := none },
         { steamId := "C", friend_since := some 1 }] 3 ["C", "STALE", "B"]
      = ["C", "B", "A"] :=
  ⟨selectInvitesToCancel_eq, by rfl⟩

/-- Claim C8: the selection only contains ids of pending entries, has
no duplicates, and is never longer than the requested count nor than
the pending list itself. -/
theorem eviction_select_sound (pending : List PendingInvite) (need : Nat)
    (hint : List String) :
    (∀ x ∈ selectInvitesToCancel pending need hint,
        x ∈ pending.map PendingInvite.steamId)
    ∧ (selectInvitesToCancel pending need hint).Nodup
    ∧ (selectInvitesToCancel pending need hint).length ≤ need
    ∧ (selectInvitesToCancel pending need hint).length ≤ pending.length := by
  rw [selectInvitesToCancel_eq]
  have hsub : ∀ x ∈ hintSelection pending need hint ++ fallbackSelection pending need hint,
      x ∈ pending.map PendingInvite.steamId := by
    intro x hx
    rcases List.mem_append.mp hx with hx | hx
    · have hx1 := List.take_subset _ _ hx
      have hx2 := mem_dedupKeepFirst.mp hx1
      have hx3 := (List.mem_filter.mp hx2).2
      rw [decide_eq_true_eq] at hx3
      exact mem_dedupKeepFirst.mp hx3
    · have hx1 := List.take_subset _ _ hx
      have hx2 := (List.mem_filter.mp hx1).1
      exact mem_dedupKeepFirst.mp hx2
  have hnd : (hintSelection pending need hint ++ fallbackSelection pending need hint).Nodup := by
    refine List.Nodup.append ?_ ?_ ?_
    · exact (List.take_sublist _ _).nodup (nodup_dedupKeepFirst _)
    · exact ((List.take_sublist _ _).trans (List.filter_sublist _)).nodup
        (nodup_dedupKeepFirst _)
    · intro a ha hb
      have hb1 := List.take_subset _ _ hb
      have hb2 := (List.mem_filter.mp hb1).2
      rw [decide_eq_true_eq] at hb2
      exact hb2 ha
  refine ⟨hsub, hnd, ?_, ?_⟩
  · rw [List.length_append]
    have l1 : (hintSelection pending need hint).length ≤ need := List.length_take_le _ _
    have l2 : (fallbackSelection pending need hint).length
        ≤ need - (hintSelection pending need hint).length := List.length_take_le _ _
    omega
  · have hsp := (hnd.subperm hsub).length_le
    rw [List.length_map] at hsp
    exact hsp

/-- Claim C8 witness: the soundness theorem instantiated on a concrete
two-entry pending list with a one-slot request and a live hint. -/
theorem eviction_select_sound_case :
    (selectInvitesToCancel
        [{ steamId := "B", friend_since := some 5 },
         { steamId := "A", friend_since := none }] 1 ["A"]).Nodup
    ∧ (selectInvitesToCancel
        [{ steamId := "B", friend_since := some 5 },
         { steamId := "A", friend_since := none }] 1 ["A"]).length ≤ 1
    ∧ (selectInvitesToCancel
        [{ steamId := "B", friend_since := some 5 },
         { steamId := "A", friend_since := none }] 1 ["A"]).length
        ≤ ([{ steamId := "B", friend_since := some 5 },
            { steamId := "A", friend_since := none }] : List PendingInvite).length := by
  have h := eviction_select_sound
    [{ steamId := "B", friend_since := some 5 },
     { steamId := "A", friend_since := none }] 1 ["A"]
  exact ⟨h.2.1, h.2.2.1, h.2.2.2⟩

/-- In a keyed relationship list without duplicate keys, two entries
with the same key are the same entry. -/
theorem key_unique {l : List (String × Int)} (hnd : (l.map Prod.fst).Nodup)
    {a b : String × Int} (ha : a ∈ l) (hb : b ∈ l) (hab : a.1 = b.1) : a = b := by
  induction l with
  | nil => cases ha
  | cons c t ih =>
    rw [List.map_cons, List.nodup_cons] at hnd
    rcases List.mem_cons.mp ha with rfl | ha'
    · rcases List.mem_cons.mp hb with rfl | hb'
      · rfl
      · exfalso
        refine hnd.1 ?_
        rw [hab]
        exact List.mem_map_of_mem Prod.fst hb'
    · rcases List.mem_cons.mp hb with rfl | hb'
      · exfalso
        refine hnd.1 ?_
        rw [← hab]
        exact List.mem_map_of_mem Prod.fst ha'
      · exact ih hnd.2 ha' hb'

/-- A key that is a confirmed friend in a duplicate-free snapshot is
not simultaneously a pending sent invite. -/
theorem not_sent_of_friend (friends : List (String × Int)) (steamId : String)
    (hkeys : (friends.map Prod.fst).Nodup)
    (hfr : steamId ∈ (friends.filter
        (fun f => decide (relationshipType f.2 = "friend"))).map Prod.fst) :
    (friends.filter (fun f => decide (relationshipType f.2 = "invite_sent"))).any
        (fun f => decide (f.1 = steamId)) = false := by
  rcases Bool.eq_false_or_eq_true ((friends.filter
      (fun f => decide (relationshipType f.2 = "invite_sent"))).any
      (fun f => decide (f.1 = steamId))) with hany | hany
  swap
  · exact hany
  · exfalso
    obtain ⟨f, hf, hf1⟩ := List.any_eq_true.mp hany
    rw [decide_eq_true_eq] at hf1
    obtain ⟨hfmem, hftype⟩ := List.mem_filter.mp hf
    rw [decide_eq_true_eq] at hftype
    obtain ⟨g, hg, hg1⟩ := List.mem_map.mp hfr
    obtain ⟨hgmem, hgtype⟩ := List.mem_filter.mp hg
    rw [decide_eq_true_eq] at hgtype
    have hfg : f = g := key_unique hkeys hfmem hgmem (by rw [hf1, hg1])
    rw [hfg, hgtype] at hftype
    exact absurd hftype (by decide)

/-- Claim C3: for a timed-out request, the reconciliation classifies
the effective outcome from the re-queried snapshot: peer in the
pending-sent set means success (and the dispatch loop then records the
peer in `successful`); peer in the confirmed-friends set means the
definitive already-related failure 14; peer in neither means temporary
failure 29; and a failed re-query is surfaced as temporary failure 29
rather than swallowed. -/
theorem timeout_reconcile_classification (friends : List (String × Int)) (steamId : String)
    (hkeys : (friends.map Prod.fst).Nodup) :
    (steamId ∈ (friends.filter
        (fun f => decide (relationshipType f.2 = "invite_sent"))).map Prod.fst →
      (timeoutReconcile steamId (some friends)).success = true
      ∧ (sendInvitesWithEarlyDetection
          [(steamId, SendOutcome.res (timeoutReconcile steamId (some friends)))]).successful
        = [steamId])
    ∧ (steamId ∈ (friends.filter
        (fun f => decide (relationshipType f.2 = "friend"))).map Prod.fst →
      (timeoutReconcile steamId (some friends)).success = false
      ∧ (timeoutReconcile steamId (some friends)).eresult = some 14
      ∧ (timeoutReconcile steamId (some friends)).errorType = some "definitive")
    ∧ (steamId ∉ (friends.filter
        (fun f => decide (relationshipType f.2 = "invite_sent"))).map Prod.fst →
      steamId ∉ (friends.filter
        (fun f => decide (relationshipType f.2 = "friend"))).map Prod.fst →
      (timeoutReconcile steamId (some friends)).success = false
      ∧ (timeoutReconcile steamId (some friends)).eresult = some 29
      ∧ (timeoutReconcile steamId (some friends)).errorType = some "temporary")
    ∧ ((timeoutReconcile steamId none).success = false
      ∧ (timeoutReconcile steamId none).eresult = some 29
      ∧ (timeoutReconcile steamId none).errorType = some "temporary") := by
  have anyTrue : ∀ l : List (String × Int), steamId ∈ l.map Prod.fst →
      l.any (fun f => decide (f.1 = steamId)) = true := by
    intro l hl
    obtain ⟨f, hf, hf1⟩ := List.mem_map.mp hl
    exact List.any_eq_true.mpr ⟨f, hf, by simp [hf1]⟩
  have anyFalse : ∀ l : List (String × Int), steamId ∉ l.map Prod.fst →
      l.any (fun f => decide (f.1 = steamId)) = false := by
    intro l hl
    rcases Bool.eq_false_or_eq_true (l.any fun f => decide (f.1 = steamId)) with h | h
    swap
    · exact h
    · exfalso
      obtain ⟨f, hf, hf1⟩ := List.any_eq_true.mp h
      rw [decide_eq_true_eq] at hf1
      exact hl (hf1 ▸ List.mem_map_of_mem Prod.fst hf)
  refine ⟨fun hp => ?_, fun hfr => ?_, fun hnp hnf => ?_, by exact ⟨rfl, rfl, rfl⟩⟩
  · have hsentB := anyTrue _ hp
    have hr : timeoutReconcile steamId (some friends)
        = { success := true, error := none, eresult := some 1 } := by
      simp [timeoutReconcile, verifyInviteStatus, hsentB]
    rw [hr]
    exact ⟨rfl, by simp [sendInvitesWithEarlyDetection, emptyBatchResults]⟩
  · have hfrB := anyTrue _ hfr
    have hnotsentB := not_sent_of_friend friends steamId hkeys hfr
    have hr : timeoutReconcile steamId (some friends)
        = { success := false, error := some "Already friends with this user",
            eresult := some 14, errorType := some "definitive" } := by
      simp [timeoutReconcile, verifyInviteStatus, hnotsentB, hfrB]
    rw [hr]
    exact ⟨rfl, rfl, rfl⟩
  · have h1 := anyFalse _ hnp
    have h2 := anyFalse _ hnf
    have hr : timeoutReconcile steamId (some friends)
        = { success := false, error := some "Friend invite timeout (verified not sent)",
            eresult := some 29, errorType := some "temporary" } := by
      simp [timeoutReconcile, verifyInviteStatus, h1, h2]
    rw [hr]
    exact ⟨rfl, rfl, rfl⟩

/-- Claim C3 witness: in a snapshot where peer `T` has relationship 2
(sent invite) and `F` is a friend, a timed-out request to `T` is
reconciled as success and the dispatcher records `T` as successful. -/
theorem timeout_reconcile_classification_case :
    ((([("T", 2), ("F", 3)] : List (String × Int)).map Prod.fst).Nodup)
    ∧ ("T" ∈ (([("T", 2), ("F", 3)] : List (String × Int)).filter
        (fun f => decide (relationshipType f.2 = "invite_sent"))).map Prod.fst)
    ∧ (timeoutReconcile "T" (some [("T", 2), ("F", 3)])).success = true
    ∧ (sendInvitesWithEarlyDetection
        [("T", SendOutcome.res (timeoutReconcile "T" (some [("T", 2), ("F", 3)])))]).successful
      = ["T"] := by
  have h := timeout_reconcile_classification [("T", 2), ("F", 3)] "T" (by decide)
  have h1 := h.1 (by decide)
  exact ⟨by decide, by decide, h1.1, h1.2⟩

/-- Claim C9: every code outside the fixed taxonomy tables gets the
fail-open default: `classifyError` says temporary, the connector's
error map misses so the mapped result is temporary with
`limitReached = false` and the raw message, and the code is in none of
the dispatcher's stop/flag lists. -/
theorem classify_unmapped_default (code : Int)
    (h : code ∉ ([14, 15, 17, 25, 29, 40, 84] : List Int)) :
    classifyError (some code) = "temporary"
    ∧ errorMapLookup code = none
    ∧ (∀ msg : String,
        (mapSteamErrorToResult { eresult := some code, message := msg }).errorType
            = some "temporary"
        ∧ (mapSteamErrorToResult { eresult := some code, message := msg }).limitReached
            = false
        ∧ (mapSteamErrorToResult { eresult := some code, message := msg }).error = some msg)
    ∧ codeIn workerCooldownErrors (some code) = false
    ∧ codeIn accountLimitErrors (some code) = false
    ∧ codeIn accountBannedErrors (some code) = false := by
  simp only [List.mem_cons, List.not_mem_nil, or_false, not_or] at h
  obtain ⟨h14, h15, h17, h25, h29, h40, h84⟩ := h
  have hmap : errorMapLookup code = none := by
    simp [errorMapLookup, h14, h15, h17, h25, h29, h40, h84]
  refine ⟨?_, hmap, fun msg => ?_, ?_, ?_, ?_⟩
  · simp [classifyError, codeIn, definitiveErrors, temporaryErrors,
      h14, h15, h17, h25, h29, h40, h84]
  · simp [mapSteamErrorToResult, hmap]
  · simp [codeIn, workerCooldownErrors, h15]
  · simp [codeIn, accountLimitErrors, h25, h84]
  · simp [codeIn, accountBannedErrors, h17]

/-- Claim C9 witness: the unmapped code 99 with an arbitrary message. -/
theorem classify_unmapped_default_case :
    ((99 : Int) ∉ ([14, 15, 17, 25, 29, 40, 84] : List Int))
    ∧ classifyError (some 99) = "temporary"
    ∧ errorMapLookup 99 = none
    ∧ (mapSteamErrorToResult { eresult := some 99, message := "boom" }).errorType
        = some "temporary"
    ∧ (mapSteamErrorToResult { eresult := some 99, message := "boom" }).limitReached = false
    ∧ codeIn workerCooldownErrors (some 99) = false
    ∧ codeIn accountLimitErrors (some 99) = false
    ∧ codeIn accountBannedErrors (some 99) = false := by
  have h := classify_unmapped_default 99 (by decide)
  exact ⟨by decide, h.1, h.2.1, (h.2.2.1 "boom").1, (h.2.2.1 "boom").2.1,
    h.2.2.2.1, h.2.2.2.2.1, h.2.2.2.2.2⟩

/-- Claim C10: calling `addFriend` while disconnected (or with a null
client) returns the fixed not-connected failure with a null `eresult`,
issues no request to the external service, and leaves the connector
state unchanged — for every steamId and every would-be client
behaviour. -/
theorem addFriend_not_connected (st : ConnectorState) (steamId : String) (ev : ClientEvent)
    (h : st.isConnected = false ∨ st.hasClient = false) :
    addFriend st steamId ev
      = ({ success := false, error := some "Not connected to Steam", eresult := none,
           errorType := none, limitReached := false }, st, []) := by
  unfold addFriend
  rcases h with h | h <;> simp [h]

/-- Claim C10 witness: a disconnected state, with a client reply that
would have succeeded had it been sent. -/
theorem addFriend_not_connected_case :
    ({ isConnected := false, hasClient := true } : ConnectorState).isConnected = false
    ∧ addFriend { isConnected := false, hasClient := true } "76561199000000001"
        (ClientEvent.reply none)
      = ({ success := false, error := some "Not connected to Steam", eresult := none,
           errorType := none, limitReached := false },
         { isConnected := false, hasClient := true }, []) :=
  ⟨rfl, addFriend_not_connected _ _ _ (Or.inl rfl)⟩

end SteamWorker
